/-
Verification of the routing / dispatch core of the `bullet` webhook relay.

The definitions below are a shallow embedding of the Python sources:
  app/models/event.py   -> Event
  app/models/routes.py  -> RouteMatcher, Route, RoutesConfig, ChannelConfig
  app/channels/base.py  -> BChan (BaseChannel interface), BChan.sendSafe
  app/channels/feishu.py-> FeishuChannel, signature generation, field attach
  app/router.py         -> create_channel_from_config, AlertRouter
  app/main.py           -> processRouteResults (the response selection)

Python dicts are embedded as insertion-ordered association lists with
unique keys: `dictGet` is `dict.get`, `dictInsert` is `d[k] = v`
(replacing the value in place when the key is present, appending
otherwise, exactly like CPython's insertion-order semantics).
-/
import Mathlib

set_option autoImplicit false

/-- Lookup in an insertion-ordered association list; embeds Python `d.get(k)`. -/
def dictGet {α : Type} : List (String × α) → String → Option α
  | [], _ => none
  | (k', v') :: rest, k => if k' = k then some v' else dictGet rest k

/-- `d.get(k, fallback)` -/
def dictGetD {α : Type} (d : List (String × α)) (k : String) (fallback : α) : α :=
  (dictGet d k).getD fallback

/-- Embeds Python `d[k] = v`: replace the value of an existing key in place,
otherwise append the new pair (CPython insertion-order semantics). -/
def dictInsert {α : Type} : List (String × α) → String → α → List (String × α)
  | [], k, v => [(k, v)]
  | (k', v') :: rest, k, v =>
    if k' = k then (k', v) :: rest else (k', v') :: dictInsert rest k v

/-- A JSON-like value, used for the arbitrary `dict[str, Any]` payloads
(`Event.payload`, `Event.meta`) and channel wire messages. -/
inductive MVal where
  | str (s : String)
  | nat (n : Nat)
  | obj (fields : List (String × MVal))
  | arr (items : List MVal)

/-- `app/models/event.py` `Event`: generic event envelope for routing. -/
structure Event where
  source : String
  type : String
  labels : List (String × String)
  payload : List (String × MVal)
  meta : List (String × MVal)

/-- `app/models/routes.py` `RouteMatcher`: match configuration
(`source`: empty matches all; `labels`: labels to match). -/
structure RouteMatcher where
  source : String
  labels : List (String × String)
deriving DecidableEq

/-- `RouteMatcher.matches(self, source, labels)`:
`if self.source and self.source != source: return False` (Python string
truthiness: non-empty); then for every `(key, value)` in `self.labels.items()`,
`if labels.get(key) != value: return False`; else `True`. -/
def RouteMatcher.matches (m : RouteMatcher) (source : String)
    (labels : List (String × String)) : Bool :=
  if m.source ≠ "" ∧ m.source ≠ source then false
  else m.labels.all (fun kv => dictGet labels kv.1 == some kv.2)

/-- `app/models/routes.py` `ChannelConfig`: a union of channel
configurations discriminated by the Pydantic `type` Literal field
(`FeishuChannelConfig` and `ResendEmailChannelConfig`). -/
inductive ChannelConfig where
  | feishu (webhook_url : String) (secret : String) (name : String)
  | resend_email («to» : List String)
      (from_email subject_prefix subject_template template_path reply_to api_key name : String)
deriving DecidableEq

/-- The `type` discriminator (the Pydantic `Literal` field of each variant). -/
def ChannelConfig.type : ChannelConfig → String
  | .feishu .. => "feishu"
  | .resend_email .. => "resend_email"

/-- `app/models/routes.py` `Route`: a single routing rule. The Python field
`match` is spelled `matcher` here (`match` is a Lean keyword). -/
structure Route where
  name : String
  matcher : RouteMatcher
  channels : List ChannelConfig
deriving DecidableEq

/-- `Route.matches` delegates to the embedded `RouteMatcher`. -/
def Route.matches (r : Route) (source : String) (labels : List (String × String)) : Bool :=
  r.matcher.matches source labels

/-- `app/models/routes.py` `RoutesConfig`. -/
structure RoutesConfig where
  routes : List Route
deriving DecidableEq

/-- A default route value used with `List.getD` when an index is in bounds. -/
def dRoute : Route := ⟨"", ⟨"", []⟩, []⟩

theorem list_all_congr {α : Type} (p q : α → Bool) :
    ∀ (l : List α), (∀ a ∈ l, p a = q a) → l.all p = l.all q
  | [], _ => rfl
  | a :: l, h => by
    simp only [List.all_cons]
    rw [h a (by simp), list_all_congr p q l (fun b hb => h b (by simp [hb]))]

/-- C2. `RouteMatcher.matches R S L` is true iff (`R.source` is empty or equals
`S`) and every `(key, value)` pair of `R.labels` satisfies `L.get key == value`;
moreover, only the entries of `L` at the keys of `R.labels` can affect the
result, so extra keys of `L` never do. -/
theorem routeMatcher_matches_iff (m : RouteMatcher) (src : String)
    (labels : List (String × String)) :
    (m.matches src labels = true ↔
      ((m.source = "" ∨ m.source = src) ∧
        ∀ kv ∈ m.labels, dictGet labels kv.1 = some kv.2))
    ∧ (∀ labels₂ : List (String × String),
        (∀ kv ∈ m.labels, dictGet labels₂ kv.1 = dictGet labels kv.1) →
        m.matches src labels₂ = m.matches src labels) := by
  constructor
  · unfold RouteMatcher.matches
    by_cases h : m.source ≠ "" ∧ m.source ≠ src
    · simp only [if_pos h]
      constructor
      · intro hfalse; exact absurd hfalse (by simp)
      · rintro ⟨hsrc, -⟩
        rcases hsrc with h1 | h1 <;> exact absurd h1 (by tauto)
    · simp only [if_neg h]
      push_neg at h
      constructor
      · intro hall
        refine ⟨?_, ?_⟩
        · by_cases he : m.source = ""
          · exact Or.inl he
          · exact Or.inr (h he)
        · intro kv hkv
          have := List.all_eq_true.mp hall kv hkv
          simpa using this
      · rintro ⟨-, hlab⟩
        exact List.all_eq_true.mpr (fun kv hkv => by simpa using hlab kv hkv)
  · intro labels₂ hsame
    unfold RouteMatcher.matches
    by_cases h : m.source ≠ "" ∧ m.source ≠ src
    · simp [if_pos h]
    · simp only [if_neg h]
      have : ∀ kv ∈ m.labels,
          (dictGet labels₂ kv.1 == some kv.2) = (dictGet labels kv.1 == some kv.2) := by
        intro kv hkv; rw [hsame kv hkv]
      exact list_all_congr _ _ m.labels this

/-- Witness for C2 at a concrete matcher and label sets: matching succeeds,
and an extra label on the event does not change the verdict. -/
theorem routeMatcher_matches_iff_witness :
    RouteMatcher.matches ⟨"grafana", [("env", "prod")]⟩ "grafana"
        [("env", "prod"), ("extra", "x")] = true ∧
    RouteMatcher.matches ⟨"grafana", [("env", "prod")]⟩ "grafana"
        [("env", "prod"), ("other", "y")]
      = RouteMatcher.matches ⟨"grafana", [("env", "prod")]⟩ "grafana"
        [("env", "prod"), ("extra", "x")] := by
  constructor
  · exact (routeMatcher_matches_iff ⟨"grafana", [("env", "prod")]⟩ "grafana"
      [("env", "prod"), ("extra", "x")]).1.mpr ⟨Or.inr rfl, by decide⟩
  · exact (routeMatcher_matches_iff ⟨"grafana", [("env", "prod")]⟩ "grafana"
      [("env", "prod"), ("extra", "x")]).2 [("env", "prod"), ("other", "y")] (by decide)

/-- Outcome of one invocation of a channel's `send` coroutine: either it
returns a boolean, or it raises an exception. -/
inductive SendOutcome where
  | ok (b : Bool)
  | raised
deriving DecidableEq

/-- `app/channels/base.py` `BaseChannel`: the abstract channel interface the
dispatcher depends on — a `name`, an `enabled` flag, and the `send` operation.
`send` is embedded as a function giving the outcome its invocation on the
event would have during the dispatch at hand. -/
structure BChan where
  name : String
  enabled : Bool
  send : Event → SendOutcome

/-- `BaseChannel.send_safe`: `if not self.enabled: return False`, then
`try: return await self.send(alert_group)` with
`except Exception: ... return False`. -/
def BChan.sendSafe (c : BChan) (e : Event) : Bool :=
  if !c.enabled then false
  else match c.send e with
    | .ok b => b
    | .raised => false

/-- C3. `send_safe` never raises (it is a total boolean function): on a
disabled channel it returns `false` whatever the `send` behaviour is (so the
result does not depend on `send`, which is never invoked); on an enabled
channel it returns `send`'s result when `send` returns normally, and `false`
when `send` raises, instead of propagating the exception. -/
theorem sendSafe_contract (c : BChan) (e : Event) :
    (c.enabled = false →
      ∀ f : Event → SendOutcome, BChan.sendSafe ⟨c.name, c.enabled, f⟩ e = false)
    ∧ (c.enabled = true → ∀ b, c.send e = .ok b → c.sendSafe e = b)
    ∧ (c.enabled = true → c.send e = .raised → c.sendSafe e = false) := by
  refine ⟨?_, ?_, ?_⟩
  · intro hd f; simp [BChan.sendSafe, hd]
  · intro he b hb; simp [BChan.sendSafe, he, hb]
  · intro he hb; simp [BChan.sendSafe, he, hb]

/-- A concrete event used by witnesses. -/
def eW : Event := ⟨"grafana", "alert", [("env", "prod")], [], []⟩

/-- Witness for C3: a disabled channel yields `false` even with a raising
`send`, and an enabled channel whose `send` raises also yields `false`. -/
theorem sendSafe_contract_witness :
    BChan.sendSafe ⟨"feishu", false, fun _ => .raised⟩ eW = false ∧
    BChan.sendSafe ⟨"feishu", true, fun _ => .raised⟩ eW = false := by
  constructor
  · exact (sendSafe_contract ⟨"feishu", false, fun _ => .ok true⟩ eW).1 rfl
      (fun _ => .raised)
  · exact (sendSafe_contract ⟨"feishu", true, fun _ => .raised⟩ eW).2.2 rfl rfl

/-- `app/channels/feishu.py` `FeishuChannel.__init__`: stores `webhook_url`
and `secret or ""` (with `create_channel_from_config` passing
`config.secret or None`, the stored secret is `config.secret` itself). -/
structure FeishuChannel where
  webhook_url : String
  secret : String
deriving DecidableEq

/-- `FeishuChannel.name`: the constant string `"feishu"`. -/
def FeishuChannel.name (_ : FeishuChannel) : String := "feishu"

/-- `FeishuChannel.enabled`: `bool(self._webhook_url)` — true iff non-empty. -/
def FeishuChannel.enabled (c : FeishuChannel) : Bool := c.webhook_url ≠ ""

/-- The `BaseChannel` view of a constructed `FeishuChannel`, given the
behaviour `beh` of its `send` (which performs network I/O). -/
def FeishuChannel.asChan (c : FeishuChannel) (beh : Event → SendOutcome) : BChan :=
  ⟨c.name, c.enabled, beh⟩

/-- `app/router.py` `create_channel_from_config`: builds a `FeishuChannel`
when `config.type == "feishu"`; every other config — including the declared
`resend_email` variant — raises `ValueError` with message
`"Unknown channel type: "` followed by `config.type`. -/
def create_channel_from_config : ChannelConfig → Except String FeishuChannel
  | .feishu webhook_url secret _name => .ok ⟨webhook_url, secret⟩
  | c => .error ("Unknown channel type: " ++ c.type)

/-- C7 (code-bug evidence). `resend_email` is a declared discriminant of the
`ChannelConfig` union, yet `create_channel_from_config` raises
`ValueError` naming it an unknown channel type; the `feishu` variant is the
only one that constructs. -/
theorem create_channel_rejects_resend_email :
    create_channel_from_config
        (.resend_email ["ops@example.com"] "" "" "" "" "" "" "")
      = .error "Unknown channel type: resend_email"
    ∧ create_channel_from_config (.feishu "https://fx" "" "")
      = .ok ⟨"https://fx", ""⟩
    ∧ (ChannelConfig.resend_email ["ops@example.com"] "" "" "" "" "" "" "").type
      = "resend_email" :=
  ⟨rfl, rfl, rfl⟩

/-- `app/router.py` route key: `route.name or f"route_{i}"` (Python string
truthiness: the positional fallback is used exactly when the name is empty). -/
def routeKey (r : Route) (i : Nat) : String :=
  if r.name = "" then "route_" ++ toString i else r.name

/-- The list comprehension in `AlertRouter.__init__` building one route's
channel instances; the first configuration error aborts construction. -/
def buildChans : List ChannelConfig → Except String (List FeishuChannel)
  | [] => .ok []
  | cfg :: rest =>
    match create_channel_from_config cfg with
    | .error m => .error m
    | .ok c =>
      match buildChans rest with
      | .error m => .error m
      | .ok cs => .ok (c :: cs)

/-- The `AlertRouter.__init__` loop over `enumerate(config.routes)`:
`self._route_channels[route_key] = [create_channel_from_config(ch) ...]`,
starting at index `i` with dict accumulator `acc`. -/
def buildRC : List Route → Nat → List (String × List FeishuChannel) →
    Except String (List (String × List FeishuChannel))
  | [], _, acc => .ok acc
  | r :: rest, i, acc =>
    match buildChans r.channels with
    | .error m => .error m
    | .ok cs => buildRC rest (i + 1) (dictInsert acc (routeKey r i) cs)

/-- `AlertRouter` state: the loaded config's routes plus `_route_channels`. -/
structure AlertRouter where
  routes : List Route
  route_channels : List (String × List FeishuChannel)
deriving DecidableEq

/-- `AlertRouter.__init__(config)`. -/
def AlertRouter.init (cfg : RoutesConfig) : Except String AlertRouter :=
  match buildRC cfg.routes 0 [] with
  | .ok d => .ok ⟨cfg.routes, d⟩
  | .error m => .error m

/-- The loop of `AlertRouter.find_route` from index `i`: first matching route
wins and is paired with `self._route_channels.get(route_key, [])`. -/
def findRouteAux (rc : List (String × List FeishuChannel)) (src : String)
    (labels : List (String × String)) :
    List Route → Nat → Option Route × List FeishuChannel
  | [], _ => (none, [])
  | r :: rest, i =>
    if r.matches src labels then (some r, dictGetD rc (routeKey r i) [])
    else findRouteAux rc src labels rest (i + 1)

/-- `AlertRouter.find_route` (the routed value contributes its `source` and
`labels`). -/
def AlertRouter.find_route (rt : AlertRouter) (src : String)
    (labels : List (String × String)) : Option Route × List FeishuChannel :=
  findRouteAux rt.route_channels src labels rt.routes 0

/-- The channel list of one dispatch as `BaseChannel` instances: `net i` is
the outcome the `i`-th channel's `send` would have if invoked during this
dispatch (sends happen sequentially, one network call per attempt). -/
def attachNet (net : Nat → SendOutcome) : List FeishuChannel → Nat → List BChan
  | [], _ => []
  | c :: rest, i => c.asChan (fun _ => net i) :: attachNet net rest (i + 1)

/-- The loop of `AlertRouter.route_alert`:
`results[channel.name] = await channel.send_safe(...)` over every channel. -/
def dispatchLoop (e : Event) : List BChan → List (String × Bool) → List (String × Bool)
  | [], results => results
  | c :: rest, results =>
    dispatchLoop e rest (dictInsert results c.name (c.sendSafe e))

/-- The result mapping produced by dispatching `channels` for event `e`. -/
def dispatchChannels (channels : List BChan) (e : Event) : List (String × Bool) :=
  dispatchLoop e channels []

/-- `AlertRouter.route_alert`: find the route, return `{}` when there is no
match or no channels, otherwise fan out sequentially over every channel. -/
def AlertRouter.route_alert (rt : AlertRouter) (e : Event)
    (net : Nat → SendOutcome) : List (String × Bool) :=
  match rt.find_route e.source e.labels with
  | (none, _) => []
  | (some _, channels) =>
    if channels.isEmpty then []
    else dispatchChannels (attachNet net channels 0) e

theorem dictGet_insert_self {α : Type} (d : List (String × α)) (k : String) (v : α) :
    dictGet (dictInsert d k v) k = some v := by
  induction d with
  | nil => simp [dictInsert, dictGet]
  | cons p rest ih =>
    obtain ⟨k', v'⟩ := p
    by_cases h : k' = k
    · simp [dictInsert, dictGet, h]
    · simp [dictInsert, dictGet, h, ih]

theorem dictGet_insert_ne {α : Type} (d : List (String × α)) (k kq : String) (v : α)
    (h : k ≠ kq) : dictGet (dictInsert d k v) kq = dictGet d kq := by
  induction d with
  | nil => simp [dictInsert, dictGet, h]
  | cons p rest ih =>
    obtain ⟨k', v'⟩ := p
    by_cases h' : k' = k
    · subst h'; simp [dictInsert, dictGet, h]
    · simp [dictInsert, dictGet, h', ih]

/-- Processing routes none of which has key `K` leaves the dict entry at `K`
unchanged. -/
theorem buildRC_get_skip (K : String) :
    ∀ (routes : List Route) (i : Nat) (acc d : List (String × List FeishuChannel)),
    buildRC routes i acc = .ok d →
    (∀ j, j < routes.length → routeKey (routes.getD j dRoute) (i + j) ≠ K) →
    dictGet d K = dictGet acc K := by
  intro routes
  induction routes with
  | nil =>
    intro i acc d hok _
    cases hok
    rfl
  | cons r rest ih =>
    intro i acc d hok hkeys
    unfold buildRC at hok
    cases hcs : buildChans r.channels with
    | error m => rw [hcs] at hok; cases hok
    | ok cs =>
      rw [hcs] at hok
      have hstep := ih (i + 1) (dictInsert acc (routeKey r i) cs) d hok
        (fun j hj => by
          have := hkeys (j + 1) (by simpa using Nat.succ_lt_succ hj)
          simpa [Nat.add_assoc, Nat.add_comm 1 j] using this)
      have hr : routeKey r i ≠ K := by
        have := hkeys 0 (by simp)
        simpa using this
      rw [hstep, dictGet_insert_ne _ _ _ _ hr]

/-- The dict entry at key `K` after `__init__` is the channel list built from
the **last** route carrying key `K`. -/
theorem buildRC_get_last (K : String) :
    ∀ (routes : List Route) (i : Nat) (acc d : List (String × List FeishuChannel))
      (j : Nat) (cs : List FeishuChannel),
    buildRC routes i acc = .ok d →
    j < routes.length →
    routeKey (routes.getD j dRoute) (i + j) = K →
    buildChans (routes.getD j dRoute).channels = .ok cs →
    (∀ j', j < j' → j' < routes.length → routeKey (routes.getD j' dRoute) (i + j') ≠ K) →
    dictGet d K = some cs := by
  intro routes
  induction routes with
  | nil => intro i acc d j cs _ hj; exact absurd hj (by simp)
  | cons r rest ih =>
    intro i acc d j cs hok hj hkey hchans hlast
    unfold buildRC at hok
    cases hcs : buildChans r.channels with
    | error m => rw [hcs] at hok; cases hok
    | ok cs0 =>
      rw [hcs] at hok
      cases j with
      | zero =>
        rw [List.getD_cons_zero] at hkey hchans
        rw [Nat.add_zero] at hkey
        have hcs0 : cs0 = cs := by
          rw [hcs] at hchans
          exact (Except.ok.injEq _ _).mp hchans
        subst hcs0
        have hkey' : routeKey r i = K := hkey
        have hskip := buildRC_get_skip K rest (i + 1)
          (dictInsert acc (routeKey r i) cs0) d hok
          (fun j' hj' => by
            have := hlast (j' + 1) (Nat.succ_pos _) (by simpa using Nat.succ_lt_succ hj')
            simpa [Nat.add_assoc, Nat.add_comm 1 j'] using this)
        rw [hskip, hkey', dictGet_insert_self]
      | succ j'' =>
        have hj'' : j'' < rest.length := Nat.lt_of_succ_lt_succ hj
        refine ih (i + 1) (dictInsert acc (routeKey r i) cs0) d j'' cs hok hj'' ?_ ?_ ?_
        · have : (r :: rest).getD (j'' + 1) dRoute = rest.getD j'' dRoute := by simp
          rw [this] at hkey
          simpa [Nat.add_assoc, Nat.add_comm 1 j''] using hkey
        · have : (r :: rest).getD (j'' + 1) dRoute = rest.getD j'' dRoute := by simp
          rwa [this] at hchans
        · intro j' hlt hlen
          have := hlast (j' + 1) (Nat.succ_lt_succ hlt) (by simpa using Nat.succ_lt_succ hlen)
          have hg : (r :: rest).getD (j' + 1) dRoute = rest.getD j' dRoute := by simp
          rw [hg] at this
          simpa [Nat.add_assoc, Nat.add_comm 1 j'] using this

/-- `find_route` returns at the first index whose matcher accepts. -/
theorem findRouteAux_first (rc : List (String × List FeishuChannel)) (src : String)
    (labels : List (String × String)) :
    ∀ (routes : List Route) (k i : Nat),
    i < routes.length →
    (routes.getD i dRoute).matches src labels = true →
    (∀ j, j < i → (routes.getD j dRoute).matches src labels = false) →
    findRouteAux rc src labels routes k
      = (some (routes.getD i dRoute),
         dictGetD rc (routeKey (routes.getD i dRoute) (k + i)) []) := by
  intro routes
  induction routes with
  | nil => intro k i hi; exact absurd hi (by simp)
  | cons r rest ih =>
    intro k i hi hm hfirst
    cases i with
    | zero =>
      simp only [List.getD_cons_zero] at hm ⊢
      simp [findRouteAux, hm]
    | succ i' =>
      have h0 : r.matches src labels = false := by
        have := hfirst 0 (Nat.succ_pos _)
        simpa using this
      have hi' : i' < rest.length := Nat.lt_of_succ_lt_succ hi
      have hm' : (rest.getD i' dRoute).matches src labels = true := by
        simpa using hm
      have hfirst' : ∀ j, j < i' → (rest.getD j dRoute).matches src labels = false := by
        intro j hj
        have := hfirst (j + 1) (Nat.succ_lt_succ hj)
        simpa using this
      have := ih (k + 1) i' hi' hm' hfirst'
      simp only [findRouteAux, h0]
      rw [this]
      simp [Nat.add_assoc, Nat.add_comm 1 i']

/-- `find_route` discards when no route matches. -/
theorem findRouteAux_none (rc : List (String × List FeishuChannel)) (src : String)
    (labels : List (String × String)) :
    ∀ (routes : List Route) (k : Nat),
    (∀ j, j < routes.length → (routes.getD j dRoute).matches src labels = false) →
    findRouteAux rc src labels routes k = (none, []) := by
  intro routes
  induction routes with
  | nil => intro k _; rfl
  | cons r rest ih =>
    intro k hall
    have h0 : r.matches src labels = false := by
      have := hall 0 (Nat.succ_pos _)
      simpa using this
    simp only [findRouteAux, h0]
    exact ih (k + 1) (fun j hj => by
      have := hall (j + 1) (Nat.succ_lt_succ hj)
      simpa using this)

/-- A default `BChan` value used with `List.getD` when an index is in bounds. -/
def dBChan : BChan := ⟨"", false, fun _ => .raised⟩

/-- A default `FeishuChannel` value for `List.getLastD`. -/
def dFeishu : FeishuChannel := ⟨"", ""⟩

/-- The keys a dispatch adds to the result dict: the channel names not yet
seen, in first-occurrence order. -/
def newNames (seen : List String) : List BChan → List String
  | [] => []
  | c :: rest =>
    if c.name ∈ seen then newNames seen rest
    else c.name :: newNames (c.name :: seen) rest

theorem dictInsert_keys_mem {α : Type} (d : List (String × α)) (k : String) (v : α)
    (h : k ∈ d.map Prod.fst) :
    (dictInsert d k v).map Prod.fst = d.map Prod.fst := by
  induction d with
  | nil => simp at h
  | cons p rest ih =>
    obtain ⟨k', v'⟩ := p
    by_cases hk : k' = k
    · simp [dictInsert, hk]
    · have hr : k ∈ rest.map Prod.fst := by
        simp only [List.map_cons, List.mem_cons] at h
        rcases h with h | h
        · exact absurd h.symm hk
        · exact h
      simp [dictInsert, hk, ih hr]

theorem dictInsert_keys_not_mem {α : Type} (d : List (String × α)) (k : String) (v : α)
    (h : k ∉ d.map Prod.fst) :
    (dictInsert d k v).map Prod.fst = d.map Prod.fst ++ [k] := by
  induction d with
  | nil => simp [dictInsert]
  | cons p rest ih =>
    obtain ⟨k', v'⟩ := p
    have hk : k' ≠ k := by
      intro hh
      exact h (by simp [hh])
    have hr : k ∉ rest.map Prod.fst := fun hm => h (by simp [hm])
    simp [dictInsert, hk, ih hr]

theorem newNames_congr : ∀ (l : List BChan) (s₁ s₂ : List String),
    (∀ x, x ∈ s₁ ↔ x ∈ s₂) → newNames s₁ l = newNames s₂ l
  | [], _, _, _ => rfl
  | c :: rest, s₁, s₂, h => by
    by_cases hm : c.name ∈ s₁
    · simp only [newNames, if_pos hm, if_pos ((h c.name).mp hm)]
      exact newNames_congr rest s₁ s₂ h
    · have hm₂ : c.name ∉ s₂ := fun hx => hm ((h c.name).mpr hx)
      simp only [newNames, if_neg hm, if_neg hm₂]
      rw [newNames_congr rest (c.name :: s₁) (c.name :: s₂)
        (fun x => by simp [h x])]

/-- The key set of a dispatch result: the accumulator's keys followed by the
names of the dispatched channels in first-occurrence order — independent of
every send outcome, so every channel is always attempted. -/
theorem dispatchLoop_keys (e : Event) : ∀ (l : List BChan) (acc : List (String × Bool)),
    (dispatchLoop e l acc).map Prod.fst
      = acc.map Prod.fst ++ newNames (acc.map Prod.fst) l
  | [], acc => by simp [dispatchLoop, newNames]
  | c :: rest, acc => by
    by_cases hm : c.name ∈ acc.map Prod.fst
    · have hkeys := dictInsert_keys_mem acc c.name (c.sendSafe e) hm
      simp only [dispatchLoop]
      rw [dispatchLoop_keys e rest _, hkeys]
      simp [newNames, hm]
    · have hkeys := dictInsert_keys_not_mem acc c.name (c.sendSafe e) hm
      simp only [dispatchLoop]
      rw [dispatchLoop_keys e rest _, hkeys]
      simp only [newNames, if_neg hm]
      rw [newNames_congr rest (acc.map Prod.fst ++ [c.name]) (c.name :: acc.map Prod.fst)
        (fun x => by simp [or_comm])]
      simp

theorem dispatchLoop_get_skip (e : Event) (K : String) :
    ∀ (l : List BChan) (acc : List (String × Bool)),
    (∀ c ∈ l, c.name ≠ K) →
    dictGet (dispatchLoop e l acc) K = dictGet acc K
  | [], _, _ => rfl
  | c :: rest, acc, h => by
    simp only [dispatchLoop]
    rw [dispatchLoop_get_skip e K rest _ (fun x hx => h x (by simp [hx]))]
    exact dictGet_insert_ne _ _ _ _ (h c (by simp))

/-- The dispatch result's entry at a name is the result of the **last**
channel bearing that name. -/
theorem dispatchLoop_get_last (e : Event) (K : String) :
    ∀ (l : List BChan) (acc : List (String × Bool)) (i : Nat),
    i < l.length →
    (l.getD i dBChan).name = K →
    (∀ j, i < j → j < l.length → (l.getD j dBChan).name ≠ K) →
    dictGet (dispatchLoop e l acc) K = some ((l.getD i dBChan).sendSafe e)
  | [], _, i, hi, _, _ => absurd hi (by simp)
  | c :: rest, acc, 0, _, hname, hlater => by
    rw [List.getD_cons_zero] at hname ⊢
    simp only [dispatchLoop]
    rw [dispatchLoop_get_skip e K rest _ (fun x hx => by
      obtain ⟨⟨j, hj⟩, rfl⟩ := List.mem_iff_get.mp hx
      have h2 := hlater (j + 1) (Nat.succ_pos _) (by simpa using Nat.succ_lt_succ hj)
      simp only [List.getD_cons_succ] at h2
      rw [List.getD_eq_getElem rest dBChan hj] at h2
      simpa [List.get_eq_getElem] using h2)]
    rw [← hname, dictGet_insert_self]
  | c :: rest, acc, i + 1, hi, hname, hlater => by
    simp only [List.getD_cons_succ] at hname ⊢
    simp only [dispatchLoop]
    refine dispatchLoop_get_last e K rest _ i (Nat.lt_of_succ_lt_succ hi) hname ?_
    intro j hj hjl
    have := hlater (j + 1) (Nat.succ_lt_succ hj) (by simpa using Nat.succ_lt_succ hjl)
    rwa [List.getD_cons_succ] at this

theorem dictInsert_forall {α : Type} (P : α → Prop) (d : List (String × α))
    (k : String) (v : α) (hd : ∀ p ∈ d, P p.2) (hv : P v) :
    ∀ p ∈ dictInsert d k v, P p.2 := by
  induction d with
  | nil =>
    intro p hp
    simp only [dictInsert, List.mem_singleton] at hp
    subst hp
    exact hv
  | cons q rest ih =>
    obtain ⟨k', v'⟩ := q
    intro p hp
    by_cases hk : k' = k
    · simp only [dictInsert, if_pos hk, List.mem_cons] at hp
      rcases hp with hp | hp
      · subst hp; exact hv
      · exact hd p (by simp [hp])
    · simp only [dictInsert, if_neg hk, List.mem_cons] at hp
      rcases hp with hp | hp
      · subst hp; exact hd (k', v') (by simp)
      · exact ih (fun q hq => hd q (by simp [hq])) p hp

/-- When every channel's `send_safe` fails, every recorded value is `false`. -/
theorem dispatchLoop_all_false (e : Event) :
    ∀ (l : List BChan) (acc : List (String × Bool)),
    (∀ c ∈ l, c.sendSafe e = false) →
    (∀ p ∈ acc, p.2 = false) →
    ∀ p ∈ dispatchLoop e l acc, p.2 = false
  | [], _, _, hacc => hacc
  | c :: rest, acc, hl, hacc => by
    simp only [dispatchLoop]
    exact dispatchLoop_all_false e rest _ (fun x hx => hl x (by simp [hx]))
      (dictInsert_forall (fun b => b = false) acc c.name (c.sendSafe e) hacc
        (hl c (by simp)))

/-- Dispatching a non-empty channel list yields a non-empty mapping,
whatever the outcomes. -/
theorem dispatchChannels_ne_nil (e : Event) (l : List BChan) (h : l ≠ []) :
    dispatchChannels l e ≠ [] := by
  intro hc
  have hk := dispatchLoop_keys e l []
  rw [show dispatchLoop e l [] = dispatchChannels l e from rfl, hc] at hk
  cases l with
  | nil => exact h rfl
  | cons c rest => simp [newNames] at hk

theorem dispatchLoop_feishu (e : Event) :
    ∀ (l : List BChan), (∀ c ∈ l, c.name = "feishu") →
    ∀ v : Bool, dispatchLoop e l [("feishu", v)]
      = [("feishu", l.foldl (fun _ c => c.sendSafe e) v)]
  | [], _, _ => rfl
  | c :: rest, h, v => by
    have hc : c.name = "feishu" := h c (by simp)
    simp only [dispatchLoop, List.foldl_cons]
    rw [show dictInsert [("feishu", v)] c.name (c.sendSafe e)
        = [("feishu", c.sendSafe e)] by rw [hc]; rfl]
    exact dispatchLoop_feishu e rest (fun x hx => h x (by simp [hx])) (c.sendSafe e)

theorem attachNet_names (net : Nat → SendOutcome) :
    ∀ (cs : List FeishuChannel) (i : Nat), ∀ c ∈ attachNet net cs i, c.name = "feishu"
  | [], _ => by intro c hc; simp [attachNet] at hc
  | c :: rest, i => by
    intro x hx
    simp only [attachNet] at hx
    rcases List.mem_cons.mp hx with h | h
    · subst h; rfl
    · exact attachNet_names net rest (i + 1) x h

theorem attachNet_foldl (net : Nat → SendOutcome) (e : Event) :
    ∀ (cs : List FeishuChannel) (i : Nat) (v : Bool),
    (attachNet net cs i).foldl (fun _ c => c.sendSafe e) v
      = if cs.isEmpty then v
        else ((cs.getLastD dFeishu).asChan (fun _ => net (i + cs.length - 1))).sendSafe e
  | [], _, _ => rfl
  | c :: rest, i, v => by
    simp only [attachNet, List.foldl_cons]
    rw [attachNet_foldl net e rest (i + 1) _]
    cases rest with
    | nil => simp [List.getLastD]
    | cons c2 rest2 =>
      simp only [List.isEmpty_cons, List.getLastD_cons, List.length_cons]
      have harith : i + 1 + (rest2.length + 1) - 1 = i + (rest2.length + 1 + 1) - 1 := by
        omega
      rw [harith]
      simp

/-- Under a successfully initialised router, `find_route` pairs the first
matching route (index `i`) with the channel list built from the last route
(index `j`) whose key equals route `i`'s key. -/
theorem router_find_route_core (cfg : RoutesConfig) (rt : AlertRouter)
    (src : String) (labels : List (String × String)) (i j : Nat)
    (cs : List FeishuChannel)
    (hinit : AlertRouter.init cfg = .ok rt)
    (hi : i < cfg.routes.length)
    (hm : (cfg.routes.getD i dRoute).matches src labels = true)
    (hfirst : ∀ k, k < i → (cfg.routes.getD k dRoute).matches src labels = false)
    (hj : j < cfg.routes.length)
    (hkey : routeKey (cfg.routes.getD j dRoute) j = routeKey (cfg.routes.getD i dRoute) i)
    (hcs : buildChans (cfg.routes.getD j dRoute).channels = .ok cs)
    (hlast : ∀ k, j < k → k < cfg.routes.length →
      routeKey (cfg.routes.getD k dRoute) k ≠ routeKey (cfg.routes.getD i dRoute) i) :
    rt.find_route src labels = (some (cfg.routes.getD i dRoute), cs) := by
  unfold AlertRouter.init at hinit
  cases hbd : buildRC cfg.routes 0 [] with
  | error m => rw [hbd] at hinit; cases hinit
  | ok d =>
    rw [hbd] at hinit
    cases hinit
    unfold AlertRouter.find_route
    rw [findRouteAux_first d src labels cfg.routes 0 i hi hm hfirst]
    have hget : dictGet d (routeKey (cfg.routes.getD i dRoute) i) = some cs := by
      refine buildRC_get_last _ cfg.routes 0 [] d j cs hbd hj ?_ hcs ?_
      · simpa using hkey
      · intro k hk hkl
        simpa using hlast k hk hkl
    simp only [Nat.zero_add]
    unfold dictGetD
    rw [hget]
    rfl

theorem route_alert_of_find (rt : AlertRouter) (e : Event) (net : Nat → SendOutcome)
    (r : Route) (cs : List FeishuChannel)
    (h : rt.find_route e.source e.labels = (some r, cs)) :
    rt.route_alert e net = if cs.isEmpty then []
      else dispatchChannels (attachNet net cs 0) e := by
  unfold AlertRouter.route_alert
  rw [h]

theorem route_alert_of_none (rt : AlertRouter) (e : Event) (net : Nat → SendOutcome)
    (h : rt.find_route e.source e.labels = (none, [])) :
    rt.route_alert e net = [] := by
  unfold AlertRouter.route_alert
  rw [h]

/-- C1 (amended). If route `i` is the first whose matcher accepts the event's
source and labels, and no later route shares route `i`'s key (its `name`, or
the positional fallback), then `route_alert` returns exactly the send results
of route `i`'s own channel list (the empty mapping when that list is empty)
and of no later route — even if a later route would also match. Without the
key proviso a later same-named route's list is used instead (see the
counterexample and C9). -/
theorem route_alert_first_match (cfg : RoutesConfig) (rt : AlertRouter) (e : Event)
    (net : Nat → SendOutcome) (i : Nat) (cs : List FeishuChannel)
    (hinit : AlertRouter.init cfg = .ok rt)
    (hi : i < cfg.routes.length)
    (hm : (cfg.routes.getD i dRoute).matches e.source e.labels = true)
    (hfirst : ∀ k, k < i → (cfg.routes.getD k dRoute).matches e.source e.labels = false)
    (hcs : buildChans (cfg.routes.getD i dRoute).channels = .ok cs)
    (hkeys : ∀ k, i < k → k < cfg.routes.length →
      routeKey (cfg.routes.getD k dRoute) k ≠ routeKey (cfg.routes.getD i dRoute) i) :
    rt.find_route e.source e.labels = (some (cfg.routes.getD i dRoute), cs)
    ∧ rt.route_alert e net
      = if cs.isEmpty then [] else dispatchChannels (attachNet net cs 0) e := by
  have hf := router_find_route_core cfg rt e.source e.labels i i cs hinit hi hm
    hfirst hi rfl hcs hkeys
  exact ⟨hf, route_alert_of_find rt e net _ cs hf⟩

/-- A network behaviour whose every send acknowledges success. -/
def netOk : Nat → SendOutcome := fun _ => .ok true

/-- A two-route config with distinct names: a severity-gated route and a
catch-all. -/
def cfgW : RoutesConfig :=
  ⟨[⟨"crit", ⟨"", [("severity", "critical")]⟩, [.feishu "u1" "" ""]⟩,
    ⟨"all", ⟨"", []⟩, [.feishu "u2" "s" ""]⟩]⟩

/-- The router `AlertRouter.init cfgW` constructs. -/
def rtW : AlertRouter :=
  ⟨cfgW.routes, [("crit", [⟨"u1", ""⟩]), ("all", [⟨"u2", "s"⟩])]⟩

/-- Witness for C1: `eW` fails the severity route and falls through to the
catch-all, whose own channels are dispatched. -/
theorem route_alert_first_match_witness :
    AlertRouter.find_route rtW eW.source eW.labels
      = (some (cfgW.routes.getD 1 dRoute), [⟨"u2", "s"⟩])
    ∧ AlertRouter.route_alert rtW eW netOk
      = if ([(⟨"u2", "s"⟩ : FeishuChannel)].isEmpty) then []
        else dispatchChannels (attachNet netOk [⟨"u2", "s"⟩] 0) eW :=
  route_alert_first_match cfgW rtW eW netOk 1 [⟨"u2", "s"⟩] rfl (by decide) rfl
    (fun k hk => by
      have hk0 : k = 0 := by omega
      subst hk0
      rfl)
    rfl
    (fun k h1 h2 => absurd h2 (by
      have hlen : cfgW.routes.length = 2 := rfl
      omega))

/-- First route: a same-named catch-all **with** a channel; second route: a
non-matching route named alike with no channels. -/
def cfgY : RoutesConfig :=
  ⟨[⟨"a", ⟨"", []⟩, [.feishu "u1" "" ""]⟩, ⟨"a", ⟨"zzz", []⟩, []⟩]⟩

/-- The router `AlertRouter.init cfgY` constructs: the later route's empty
list replaced the earlier one under the shared key. -/
def rtY : AlertRouter := ⟨cfgY.routes, [("a", [])]⟩

/-- C1 counterexample: route 0 is the first (and only) matching route and has
one channel, so the claim demands its channel results
(`[("feishu", true)]`, non-empty under `netOk`) — but `route_alert` returns
`{}` because the stored list under the shared key `"a"` is the later,
non-matching route's empty list. -/
theorem route_alert_first_match_counterexample :
    AlertRouter.init cfgY = .ok rtY
    ∧ (cfgY.routes.getD 0 dRoute).matches eW.source eW.labels = true
    ∧ (cfgY.routes.getD 0 dRoute).channels = [.feishu "u1" "" ""]
    ∧ buildChans (cfgY.routes.getD 0 dRoute).channels = .ok [⟨"u1", ""⟩]
    ∧ dispatchChannels (attachNet netOk [⟨"u1", ""⟩] 0) eW = [("feishu", true)]
    ∧ AlertRouter.route_alert rtY eW netOk = [] :=
  ⟨rfl, rfl, rfl, rfl, rfl, rfl⟩

/-- C5 (amended). `route_alert` returns the empty mapping, for every network
behaviour: (a) when no route matches; (b) when the first matching route has an
empty channel list and no later route shares its key. (In general the
dispatcher uses the list stored under the matched route's key, which a later
same-named route may have replaced — see the counterexample.) -/
theorem route_alert_discard (cfg : RoutesConfig) (rt : AlertRouter) (e : Event)
    (net : Nat → SendOutcome) (hinit : AlertRouter.init cfg = .ok rt) :
    ((∀ j, j < cfg.routes.length →
        (cfg.routes.getD j dRoute).matches e.source e.labels = false) →
      rt.route_alert e net = [])
    ∧ (∀ i, i < cfg.routes.length →
        (cfg.routes.getD i dRoute).matches e.source e.labels = true →
        (∀ k, k < i → (cfg.routes.getD k dRoute).matches e.source e.labels = false) →
        (cfg.routes.getD i dRoute).channels = [] →
        (∀ k, i < k → k < cfg.routes.length →
          routeKey (cfg.routes.getD k dRoute) k ≠ routeKey (cfg.routes.getD i dRoute) i) →
        rt.route_alert e net = []) := by
  constructor
  · intro hnone
    refine route_alert_of_none rt e net ?_
    unfold AlertRouter.init at hinit
    cases hbd : buildRC cfg.routes 0 [] with
    | error m => rw [hbd] at hinit; cases hinit
    | ok d =>
      rw [hbd] at hinit
      cases hinit
      exact findRouteAux_none d e.source e.labels cfg.routes 0 hnone
  · intro i hi hm hfirst hch hkeys
    have hcs : buildChans (cfg.routes.getD i dRoute).channels = .ok [] := by
      rw [hch]
      rfl
    have hf := router_find_route_core cfg rt e.source e.labels i i [] hinit hi hm
      hfirst hi rfl hcs hkeys
    rw [route_alert_of_find rt e net _ [] hf]
    rfl

/-- A config whose only route never matches `eW` (source gate), plus one
whose first route is a channel-less catch-all. -/
def cfgV : RoutesConfig := ⟨[⟨"only", ⟨"zzz", []⟩, [.feishu "u" "" ""]⟩]⟩

/-- The router `AlertRouter.init cfgV` constructs. -/
def rtV : AlertRouter := ⟨cfgV.routes, [("only", [⟨"u", ""⟩])]⟩

/-- A config whose first (and only) route matches everything and has no
channels. -/
def cfgU : RoutesConfig := ⟨[⟨"empty", ⟨"", []⟩, []⟩]⟩

/-- The router `AlertRouter.init cfgU` constructs. -/
def rtU : AlertRouter := ⟨cfgU.routes, [("empty", [])]⟩

/-- Witness for C5: both discard cases at concrete inputs — no route matches
(`cfgV`), and a matching route with zero channels (`cfgU`). -/
theorem route_alert_discard_witness :
    AlertRouter.route_alert rtV eW netOk = []
    ∧ AlertRouter.route_alert rtU eW netOk = [] := by
  constructor
  · exact (route_alert_discard cfgV rtV eW netOk rfl).1
      (fun j hj => by
        have hlen : cfgV.routes.length = 1 := rfl
        have hj0 : j = 0 := by omega
        subst hj0
        rfl)
  · exact (route_alert_discard cfgU rtU eW netOk rfl).2 0 (by decide) rfl
      (fun k hk => absurd hk (Nat.not_lt_zero k)) rfl
      (fun k h1 h2 => absurd h2 (by
        have hlen : cfgU.routes.length = 1 := rfl
        omega))

/-- First route: a same-named catch-all with **no** channels; second route: a
non-matching route named alike with one channel. -/
def cfgX : RoutesConfig :=
  ⟨[⟨"a", ⟨"", []⟩, []⟩, ⟨"a", ⟨"zzz", []⟩, [.feishu "u" "" ""]⟩]⟩

/-- The router `AlertRouter.init cfgX` constructs: the later route's channel
list replaced the earlier empty one under the shared key. -/
def rtX : AlertRouter := ⟨cfgX.routes, [("a", [⟨"u", ""⟩])]⟩

/-- C5 counterexample: the first matching route (index 0) has an empty
channel list, so the claim demands the empty mapping — yet `route_alert`
delivers and returns `[("feishu", true)]`, because the stored list under the
shared key `"a"` is the later route's. -/
theorem route_alert_discard_counterexample :
    AlertRouter.init cfgX = .ok rtX
    ∧ (cfgX.routes.getD 0 dRoute).matches eW.source eW.labels = true
    ∧ (cfgX.routes.getD 0 dRoute).channels = []
    ∧ AlertRouter.route_alert rtX eW netOk = [("feishu", true)] :=
  ⟨rfl, rfl, rfl, rfl⟩

/-- C9. With an earlier and a later route sharing the same non-empty name,
`__init__` stores both constructed channel lists under that single key, the
later overwriting the earlier; `find_route` hence pairs the first matching
route of that name with the channel list built from the last same-named
route's configuration. -/
theorem router_duplicate_name_aliasing (cfg : RoutesConfig) (rt : AlertRouter)
    (src : String) (labels : List (String × String)) (i j : Nat) (nm : String)
    (csj : List FeishuChannel)
    (hinit : AlertRouter.init cfg = .ok rt)
    (hij : i < j) (hj : j < cfg.routes.length)
    (hnm : nm ≠ "")
    (hni : (cfg.routes.getD i dRoute).name = nm)
    (hnj : (cfg.routes.getD j dRoute).name = nm)
    (hm : (cfg.routes.getD i dRoute).matches src labels = true)
    (hfirst : ∀ k, k < i → (cfg.routes.getD k dRoute).matches src labels = false)
    (hcsj : buildChans (cfg.routes.getD j dRoute).channels = .ok csj)
    (hlast : ∀ k, j < k → k < cfg.routes.length →
      routeKey (cfg.routes.getD k dRoute) k ≠ nm) :
    dictGet rt.route_channels nm = some csj
    ∧ rt.find_route src labels = (some (cfg.routes.getD i dRoute), csj) := by
  have hi : i < cfg.routes.length := Nat.lt_trans hij hj
  have hkeyi : routeKey (cfg.routes.getD i dRoute) i = nm := by
    unfold routeKey
    rw [hni]
    simp [hnm]
  have hkeyj : routeKey (cfg.routes.getD j dRoute) j = nm := by
    unfold routeKey
    rw [hnj]
    simp [hnm]
  have hf := router_find_route_core cfg rt src labels i j csj hinit hi hm hfirst hj
    (by rw [hkeyj, hkeyi]) hcsj
    (fun k h1 h2 => by rw [hkeyi]; exact hlast k h1 h2)
  refine ⟨?_, hf⟩
  unfold AlertRouter.init at hinit
  cases hbd : buildRC cfg.routes 0 [] with
  | error m => rw [hbd] at hinit; cases hinit
  | ok d =>
    rw [hbd] at hinit
    cases hinit
    refine buildRC_get_last nm cfg.routes 0 [] d j csj hbd hj ?_ hcsj ?_
    · simpa using hkeyj
    · intro k h1 h2
      simpa using hlast k h1 h2

/-- Two routes both named `"a"`: the first matches everything and posts to
`u1`, the second never matches and posts to `u2`. -/
def cfgZ : RoutesConfig :=
  ⟨[⟨"a", ⟨"", []⟩, [.feishu "u1" "" ""]⟩,
    ⟨"a", ⟨"zzz", []⟩, [.feishu "u2" "" ""]⟩]⟩

/-- The router `AlertRouter.init cfgZ` constructs. -/
def rtZ : AlertRouter := ⟨cfgZ.routes, [("a", [⟨"u2", ""⟩])]⟩

/-- Witness for C9: the matched first route is paired with the last
same-named route's channel (`u2`), not its own (`u1`). -/
theorem router_duplicate_name_aliasing_witness :
    dictGet rtZ.route_channels "a" = some [⟨"u2", ""⟩]
    ∧ AlertRouter.find_route rtZ eW.source eW.labels
      = (some (cfgZ.routes.getD 0 dRoute), [⟨"u2", ""⟩]) :=
  router_duplicate_name_aliasing cfgZ rtZ eW.source eW.labels 0 1 "a" [⟨"u2", ""⟩]
    rfl (by decide) (by decide) (by decide) rfl rfl rfl
    (fun k hk => absurd hk (Nat.not_lt_zero k)) rfl
    (fun k h1 h2 => absurd h2 (by
      have hlen : cfgZ.routes.length = 2 := rfl
      omega))

/-- C4. For a matched route with a non-empty channel list, `route_alert`
dispatches exactly that list (`net i` being the outcome of the `i`-th
channel's send): the mapping's keys are all the dispatched channels' names in
first-occurrence order independently of every outcome (so every channel is
attempted, with no early exit on failure); the entry at a name is the result
of the **last** channel bearing it (a duplicate overwrites the earlier
entry); and if every channel's `send_safe` fails, the mapping is non-empty
with every value `false`. -/
theorem dispatch_no_early_exit (rt : AlertRouter) (e : Event)
    (net : Nat → SendOutcome) (r : Route) (fcs : List FeishuChannel)
    (hfind : rt.find_route e.source e.labels = (some r, fcs))
    (hne : fcs ≠ []) :
    rt.route_alert e net = dispatchChannels (attachNet net fcs 0) e
    ∧ (dispatchChannels (attachNet net fcs 0) e).map Prod.fst
        = newNames [] (attachNet net fcs 0)
    ∧ (∀ K i, i < (attachNet net fcs 0).length →
        ((attachNet net fcs 0).getD i dBChan).name = K →
        (∀ j, i < j → j < (attachNet net fcs 0).length →
          ((attachNet net fcs 0).getD j dBChan).name ≠ K) →
        dictGet (dispatchChannels (attachNet net fcs 0) e) K
          = some (((attachNet net fcs 0).getD i dBChan).sendSafe e))
    ∧ ((∀ c ∈ attachNet net fcs 0, c.sendSafe e = false) →
        dispatchChannels (attachNet net fcs 0) e ≠ []
        ∧ ∀ p ∈ dispatchChannels (attachNet net fcs 0) e, p.2 = false) := by
  refine ⟨?_, ?_, ?_, ?_⟩
  · rw [route_alert_of_find rt e net r fcs hfind]
    have hnf : fcs.isEmpty = false := by
      cases fcs with
      | nil => exact absurd rfl hne
      | cons a l => rfl
    simp [hnf]
  · have := dispatchLoop_keys e (attachNet net fcs 0) []
    simpa [dispatchChannels] using this
  · intro K i hi hname hlater
    exact dispatchLoop_get_last e K (attachNet net fcs 0) [] i hi hname hlater
  · intro hall
    refine ⟨?_, ?_⟩
    · refine dispatchChannels_ne_nil e _ ?_
      cases fcs with
      | nil => exact absurd rfl hne
      | cons a l => simp [attachNet]
    · exact dispatchLoop_all_false e (attachNet net fcs 0) [] hall (by simp)

/-- The single catch-all route with two feishu channels. -/
def rC4 : Route := ⟨"all", ⟨"", []⟩, [.feishu "u1" "" "", .feishu "u2" "" ""]⟩

/-- The router `AlertRouter.init ⟨[rC4]⟩` constructs. -/
def rtC4 : AlertRouter := ⟨[rC4], [("all", [⟨"u1", ""⟩, ⟨"u2", ""⟩])]⟩

/-- A network where the first send raises and every later send succeeds. -/
def netC4 : Nat → SendOutcome := fun i => if i = 0 then .raised else .ok true

/-- Witness for C4: a two-channel route where the first send raises still
dispatches the full list. -/
theorem dispatch_no_early_exit_witness :
    AlertRouter.route_alert rtC4 eW netC4
      = dispatchChannels (attachNet netC4 [⟨"u1", ""⟩, ⟨"u2", ""⟩] 0) eW :=
  (dispatch_no_early_exit rtC4 eW netC4 rC4 [⟨"u1", ""⟩, ⟨"u2", ""⟩] rfl
    (by decide)).1

/-- C10. `FeishuChannel.name` is the constant string `"feishu"` whatever the
configuration — `create_channel_from_config` drops the config's `name` field
on the floor — so dispatching a route that holds several feishu channels
yields a mapping with the single key `"feishu"` holding only the **last**
such channel's result. -/
theorem feishu_name_collapses (url secret nm : String) (c : FeishuChannel)
    (cs : List FeishuChannel) (e : Event) (net : Nat → SendOutcome) :
    create_channel_from_config (.feishu url secret nm) = .ok ⟨url, secret⟩
    ∧ c.name = "feishu"
    ∧ (cs ≠ [] → dispatchChannels (attachNet net cs 0) e
        = [("feishu",
            ((cs.getLastD dFeishu).asChan (fun _ => net (cs.length - 1))).sendSafe e)]) := by
  refine ⟨rfl, rfl, ?_⟩
  intro hne
  cases cs with
  | nil => exact absurd rfl hne
  | cons c0 rest =>
    unfold dispatchChannels
    simp only [attachNet, dispatchLoop]
    rw [show dictInsert [] (c0.asChan (fun _ => net 0)).name
        ((c0.asChan (fun _ => net 0)).sendSafe e)
        = [("feishu", (c0.asChan (fun _ => net 0)).sendSafe e)] from rfl]
    rw [dispatchLoop_feishu e (attachNet net rest 1)
      (attachNet_names net rest 1) ((c0.asChan (fun _ => net 0)).sendSafe e)]
    rw [attachNet_foldl net e rest 1 ((c0.asChan (fun _ => net 0)).sendSafe e)]
    cases rest with
    | nil => simp [List.getLastD]
    | cons c1 rest1 =>
      simp only [List.isEmpty_cons, List.getLastD_cons, List.length_cons]
      have harith : 1 + (rest1.length + 1) - 1 = rest1.length + 1 + 1 - 1 := by
        omega
      rw [harith]
      simp

/-- Two feishu channels in one route. -/
def csC10 : List FeishuChannel := [⟨"u1", ""⟩, ⟨"u2", ""⟩]

/-- A network where only the first send succeeds. -/
def netC10 : Nat → SendOutcome := fun i => .ok (i == 0)

/-- Witness for C10: the mapping collapses to the last feishu channel's
result even though the earlier channel succeeded. -/
theorem feishu_name_collapses_witness :
    dispatchChannels (attachNet netC10 csC10 0) eW
      = [("feishu",
          ((csC10.getLastD dFeishu).asChan
            (fun _ => netC10 (csC10.length - 1))).sendSafe eW)] :=
  (feishu_name_collapses "u" "s" "n" dFeishu csC10 eW netC10).2.2 (by decide)

/-- `app/main.py` `_process_webhook` response data for a processed webhook:
HTTP status code plus the JSON body fields (`status`, `message`, `source`,
`results`). -/
structure WebhookResp where
  status_code : Nat
  status : String
  message : String
  source : String
  results : List (String × Bool)
deriving DecidableEq

/-- The tail of `_process_webhook` (after `route_alert` returned `results`):
`if not results:` → 200 "discarded" with literal empty results;
`any_success = any(results.values())`; `if not any_success:` → 502 "error";
otherwise → 200 "ok". The raw mapping is included in every body. -/
def processRouteResults (source_name : String)
    (results : List (String × Bool)) : WebhookResp :=
  if results.isEmpty then
    ⟨200, "discarded", "No matching route found", source_name, []⟩
  else
    let any_success := results.any (fun p => p.2)
    if !any_success then
      ⟨502, "error", "Failed to send to all matched channels", source_name, results⟩
    else
      ⟨200, "ok", "Alert routed successfully", source_name, results⟩

/-- C6. An empty routing result maps to success (200) with the "discarded"
marker; a non-empty all-false result maps to gateway error (502); a non-empty
result with at least one success maps to success (200); and in each case the
body carries the per-channel boolean mapping. -/
theorem webhook_response_contract (source_name : String)
    (results : List (String × Bool)) :
    (results = [] →
      (processRouteResults source_name results).status_code = 200
      ∧ (processRouteResults source_name results).status = "discarded"
      ∧ (processRouteResults source_name results).results = results)
    ∧ (results ≠ [] → (∀ p ∈ results, p.2 = false) →
      (processRouteResults source_name results).status_code = 502
      ∧ (processRouteResults source_name results).status = "error"
      ∧ (processRouteResults source_name results).results = results)
    ∧ (results ≠ [] → (∃ p ∈ results, p.2 = true) →
      (processRouteResults source_name results).status_code = 200
      ∧ (processRouteResults source_name results).status = "ok"
      ∧ (processRouteResults source_name results).results = results) := by
  refine ⟨?_, ?_, ?_⟩
  · intro h
    subst h
    exact ⟨rfl, rfl, rfl⟩
  · intro hne hall
    have hempty : results.isEmpty = false := by
      cases results with
      | nil => exact absurd rfl hne
      | cons a l => rfl
    have hany : results.any (fun p => p.2) = false := by
      rw [List.any_eq_false]
      intro p hp
      simp [hall p hp]
    simp [processRouteResults, hempty, hany]
  · intro hne hex
    have hempty : results.isEmpty = false := by
      cases results with
      | nil => exact absurd rfl hne
      | cons a l => rfl
    have hany : results.any (fun p => p.2) = true := by
      rw [List.any_eq_true]
      obtain ⟨p, hp, hv⟩ := hex
      exact ⟨p, hp, by simp [hv]⟩
    simp [processRouteResults, hempty, hany]

/-- Witness for C6 at concrete mappings: all-failed yields 502/"error",
mixed yields 200/"ok", and both bodies carry the mapping. -/
theorem webhook_response_contract_witness :
    ((processRouteResults "grafana" [("feishu", false)]).status_code = 502
      ∧ (processRouteResults "grafana" [("feishu", false)]).status = "error"
      ∧ (processRouteResults "grafana" [("feishu", false)]).results
          = [("feishu", false)])
    ∧ ((processRouteResults "grafana" [("feishu", true), ("x", false)]).status_code = 200
      ∧ (processRouteResults "grafana" [("feishu", true), ("x", false)]).status = "ok"
      ∧ (processRouteResults "grafana" [("feishu", true), ("x", false)]).results
          = [("feishu", true), ("x", false)]) :=
  ⟨(webhook_response_contract "grafana" [("feishu", false)]).2.1 (by decide)
      (by decide),
    (webhook_response_contract "grafana" [("feishu", true), ("x", false)]).2.2
      (by decide) ⟨("feishu", true), by decide, rfl⟩⟩

/-- 32-bit truncation. -/
def w32 (n : Nat) : Nat := n % 4294967296

/-- Right rotation of a 32-bit word by `n`. -/
def rotr32 (n x : Nat) : Nat := w32 (x / 2 ^ n + x % 2 ^ n * 2 ^ (32 - n))

/-- Big-endian byte expansion into `n` bytes. -/
def bytesBE (n v : Nat) : List Nat :=
  (List.range n).map (fun i => v / 2 ^ (8 * (n - 1 - i)) % 256)

/-- SHA-256 round constants (decimal). -/
def sha256K : List Nat :=
  [1116352408, 1899447441, 3049323471, 3921009573, 961987163,
   1508970993, 2453635748, 2870763221, 3624381080, 310598401,
   607225278, 1426881987, 1925078388, 2162078206, 2614888103,
   3248222580, 3835390401, 4022224774, 264347078, 604807628,
   770255983, 1249150122, 1555081692, 1996064986, 2554220882,
   2821834349, 2952996808, 3210313671, 3336571891, 3584528711,
   113926993, 338241895, 666307205, 773529912, 1294757372,
   1396182291, 1695183700, 1986661051, 2177026350, 2456956037,
   2730485921, 2820302411, 3259730800, 3345764771, 3516065817,
   3600352804, 4094571909, 275423344, 430227734, 506948616,
   659060556, 883997877, 958139571, 1322822218, 1537002063,
   1747873779, 1955562222, 2024104815, 2227730452, 2361852424,
   2428436474, 2756734187, 3204031479, 3329325298]

/-- SHA-256 initial hash state (decimal). -/
def sha256H0 : List Nat :=
  [1779033703, 3144134277, 1013904242, 2773480762, 1359893119,
   2600822924, 528734635, 1541459225]

/-- SHA-256 message padding: `0x80`, zeros to 56 mod 64, 8-byte bit length. -/
def sha256Pad (msg : List Nat) : List Nat :=
  msg ++ 128 :: List.replicate ((119 - msg.length % 64) % 64) 0
      ++ bytesBE 8 (msg.length * 8)

/-- Big-endian 4-byte grouping of a byte list into 32-bit words. -/
def toWordsBE : List Nat → List Nat
  | a :: b :: c :: d :: rest => (((a * 256 + b) * 256 + c) * 256 + d) :: toWordsBE rest
  | _ => []

/-- Split a byte list into 64-byte chunks. -/
def chunk64 : List Nat → List (List Nat)
  | [] => []
  | a :: rest => (a :: rest.take 63) :: chunk64 (rest.drop 63)
termination_by l => l.length
decreasing_by simp [List.length_drop]; omega

def ssig0 (x : Nat) : Nat := rotr32 7 x ^^^ rotr32 18 x ^^^ x / 2 ^ 3

def ssig1 (x : Nat) : Nat := rotr32 17 x ^^^ rotr32 19 x ^^^ x / 2 ^ 10

def bsig0 (x : Nat) : Nat := rotr32 2 x ^^^ rotr32 13 x ^^^ rotr32 22 x

def bsig1 (x : Nat) : Nat := rotr32 6 x ^^^ rotr32 11 x ^^^ rotr32 25 x

/-- Extend the 16 block words to the 64-word message schedule. -/
def msgSchedule (block : List Nat) : List Nat :=
  (List.range 48).foldl
    (fun w _ =>
      let n := w.length
      w ++ [w32 (w.getD (n - 16) 0 + ssig0 (w.getD (n - 15) 0)
        + w.getD (n - 7) 0 + ssig1 (w.getD (n - 2) 0))])
    (toWordsBE block)

/-- One SHA-256 compression round on state `[a,b,c,d,e,f,g,h]`. -/
def sha256Round (st : List Nat) (k : Nat) (w : Nat) : List Nat :=
  match st with
  | [a, b, c, d, e, f, g, h] =>
    let t1 := w32 (h + bsig1 e + ((e &&& f) ^^^ ((e ^^^ 4294967295) &&& g)) + k + w)
    let t2 := w32 (bsig0 a + ((a &&& b) ^^^ (a &&& c) ^^^ (b &&& c)))
    [w32 (t1 + t2), a, b, c, w32 (d + t1), e, f, g]
  | other => other

/-- Compress one 64-byte block into the running hash state. -/
def sha256Block (H : List Nat) (block : List Nat) : List Nat :=
  let st := (sha256K.zip (msgSchedule block)).foldl
    (fun st kw => sha256Round st kw.1 kw.2) H
  (H.zip st).map (fun p => w32 (p.1 + p.2))

/-- SHA-256 digest (32 bytes) of a byte list. -/
def sha256 (msg : List Nat) : List Nat :=
  List.flatten (((chunk64 (sha256Pad msg)).foldl sha256Block sha256H0).map (bytesBE 4))

/-- HMAC-SHA256 (RFC 2104) over byte lists. -/
def hmacSha256 (key msg : List Nat) : List Nat :=
  let k0 := if 64 < key.length then sha256 key else key
  let kp := k0 ++ List.replicate (64 - k0.length) 0
  sha256 ((kp.map (fun b => b ^^^ 92)) ++ sha256 ((kp.map (fun b => b ^^^ 54)) ++ msg))

def b64Char (n : Nat) : Char :=
  "ABCDEFGHIJKLMNOPQRSTUVWXYZabcdefghijklmnopqrstuvwxyz0123456789+/".toList.getD n 'A'

/-- Standard base64 encoding of a byte list. -/
def base64Encode : List Nat → String
  | [] => ""
  | [a] => String.mk [b64Char (a / 4), b64Char (a % 4 * 16)] ++ "=="
  | [a, b] =>
    String.mk [b64Char (a / 4), b64Char (a % 4 * 16 + b / 16), b64Char (b % 16 * 4)]
      ++ "="
  | a :: b :: c :: rest =>
    String.mk [b64Char (a / 4), b64Char (a % 4 * 16 + b / 16),
      b64Char (b % 16 * 4 + c / 64), b64Char (c % 64)] ++ base64Encode rest

/-- UTF-8 encoding of one character. -/
def charUtf8 (c : Char) : List Nat :=
  let n := c.toNat
  if n < 128 then [n]
  else if n < 2048 then [192 + n / 64, 128 + n % 64]
  else if n < 65536 then [224 + n / 4096, 128 + n / 64 % 64, 128 + n % 64]
  else [240 + n / 262144, 128 + n / 4096 % 64, 128 + n / 64 % 64, 128 + n % 64]

/-- `str.encode("utf-8")` as a byte list. -/
def utf8Bytes (s : String) : List Nat := List.flatten (s.data.map charUtf8)

/-- `FeishuChannel._generate_signature(timestamp)`:
`string_to_sign = f"{timestamp}\n{self._secret}"` is the **key** of
`hmac.new(string_to_sign.encode("utf-8"), digestmod=hashlib.sha256)` — the
HMAC message is empty — and the digest is base64-encoded. -/
def FeishuChannel.genSignature (c : FeishuChannel) (timestamp : String) : String :=
  base64Encode (hmacSha256 (utf8Bytes (timestamp ++ "\n" ++ c.secret)) [])

/-- `FeishuChannel.send`, signing step (the lines following the card/text
message build): when `self._secret` is non-empty, compute
`timestamp = str(int(time.time()))` — `now` is the send-time unix clock —
and the signature, then set `message["timestamp"]` and `message["sign"]`;
with no secret the message passes through untouched. -/
def FeishuChannel.sendAttachSignature (c : FeishuChannel)
    (message : List (String × MVal)) (now : Nat) : List (String × MVal) :=
  if c.secret ≠ "" then
    dictInsert (dictInsert message "timestamp" (.str (toString now)))
      "sign" (.str (c.genSignature (toString now)))
  else message

/-- C8. With a non-empty secret the outgoing message carries
`timestamp = str(now)` for this send's unix time `now`, and
`sign` equal to the base64 encoding of the HMAC-SHA256 digest keyed on the
UTF-8 bytes of `"{now}\n{secret}"` (empty HMAC message) — both computed
fresh from this send's `now`; with no secret the message is unchanged, so
neither field is attached. -/
theorem feishu_signature_attached (c : FeishuChannel)
    (message : List (String × MVal)) (now : Nat) :
    (c.secret ≠ "" →
      dictGet (c.sendAttachSignature message now) "timestamp"
          = some (.str (toString now))
      ∧ dictGet (c.sendAttachSignature message now) "sign"
          = some (.str (base64Encode (hmacSha256
              (utf8Bytes (toString now ++ "\n" ++ c.secret)) []))))
    ∧ (c.secret = "" → c.sendAttachSignature message now = message) := by
  constructor
  · intro hs
    unfold FeishuChannel.sendAttachSignature
    rw [if_pos hs]
    constructor
    · rw [dictGet_insert_ne _ _ _ _ (by decide)]
      exact dictGet_insert_self message "timestamp" (.str (toString now))
    · exact dictGet_insert_self _ "sign" _
  · intro hs
    unfold FeishuChannel.sendAttachSignature
    rw [if_neg (by simp [hs])]

/-- Witness for C8: a secret-bearing channel attaches both fields at a
concrete time, and a secretless channel leaves the message untouched. -/
theorem feishu_signature_attached_witness :
    (dictGet (FeishuChannel.sendAttachSignature ⟨"u", "sek"⟩
        [("msg_type", .str "text")] 1700000000) "timestamp"
      = some (.str (toString 1700000000))
    ∧ dictGet (FeishuChannel.sendAttachSignature ⟨"u", "sek"⟩
        [("msg_type", .str "text")] 1700000000) "sign"
      = some (.str (base64Encode (hmacSha256
          (utf8Bytes (toString 1700000000 ++ "\n" ++ ("sek" : String))) []))))
    ∧ FeishuChannel.sendAttachSignature ⟨"u", ""⟩
        [("msg_type", .str "text")] 1700000000 = [("msg_type", .str "text")] :=
  ⟨(feishu_signature_attached ⟨"u", "sek"⟩ [("msg_type", .str "text")]
      1700000000).1 (by decide),
    (feishu_signature_attached ⟨"u", ""⟩ [("msg_type", .str "text")]
      1700000000).2 rfl⟩
